import Mathlib

/-!
Verification of the widget parameter-protocol SDK.

The definitions below are a shallow embedding of the TypeScript sources:
the JSON-like value universe carried over the host/widget bridge, the
widget runtime message handler (src/widget-sdk/src/core.ts), the
universal bridge transport selection, the host-side schema utilities
(src/host-web/src/App.tsx, src/mobile/components/WidgetHost.tsx) and the
dot-path schema flattening described by the specification.
-/

/-- A JSON-like runtime value as carried in protocol message payloads.
Object fields keep insertion order, mirroring JavaScript objects. -/
inductive Val where
  | null
  | bool (b : Bool)
  | num (n : Int)
  | str (s : String)
  | arr (elems : List Val)
  | obj (fields : List (String × Val))

mutual

/-- Structural value equality, the semantics the host and widget observe
for the primitive values exchanged over the protocol (JavaScript strict
equality on primitives; containers compared structurally). -/
def Val.beq : Val → Val → Bool
  | .null, .null => true
  | .bool a, .bool b => a == b
  | .num a, .num b => a == b
  | .str a, .str b => a == b
  | .arr a, .arr b => Val.beqList a b
  | .obj a, .obj b => Val.beqFields a b
  | _, _ => false

/-- Element-wise equality of value lists. -/
def Val.beqList : List Val → List Val → Bool
  | [], [] => true
  | a :: as, b :: bs => Val.beq a b && Val.beqList as bs
  | _, _ => false

/-- Entry-wise equality of ordered field lists. -/
def Val.beqFields : List (String × Val) → List (String × Val) → Bool
  | [], [] => true
  | (k, a) :: as, (k2, b) :: bs => k == k2 && Val.beq a b && Val.beqFields as bs
  | _, _ => false

end

/-- Property lookup on an ordered field list: the JavaScript expression
payload[k], returning none when the key is absent (undefined). -/
def getKey (l : List (String × Val)) (k : String) : Option Val :=
  (l.find? (fun p => p.1 = k)).map (fun p => p.2)

/-- Rest destructuring that drops one key: the JavaScript pattern
writing the remaining fields of payload after removing key k. -/
def removeKey (l : List (String × Val)) (k : String) : List (String × Val) :=
  l.filter (fun p => p.1 ≠ k)

/-- Property access on a Val: object lookup, undefined otherwise. -/
def objGet (v : Val) (k : String) : Option Val :=
  match v with
  | .obj fields => getKey fields k
  | _ => none

/-- The JavaScript test v === null for values of our universe. -/
def Val.isNull : Val → Bool
  | .null => true
  | _ => false

/-!
## WidgetRuntime (src/widget-sdk/src/core.ts, class WidgetRuntime)

The runtime keeps a parameter tree, the review-mode initial answer
(null when absent) and two subscriber sets. JavaScript Sets iterate in
insertion order and ignore duplicate insertions, so subscriber sets are
embedded as duplicate-free lists of subscriber identifiers.
-/

/-- The static mutable state of WidgetRuntime. -/
structure RuntimeState where
  params : List (String × Val)
  initialAnswer : Val
  paramsListeners : List Nat
  answerListeners : List Nat

/-- The initial runtime state: empty params, null initial answer,
no subscribers. -/
def initialRuntimeState : RuntimeState :=
  { params := [], initialAnswer := Val.null, paramsListeners := [], answerListeners := [] }

/-- An inbound protocol message: a type discriminant plus a payload
object (the handler only reads the payload of PARAMS_UPDATE messages,
which the host always sends as an object). -/
structure HostMessage where
  type : String
  payload : List (String × Val)

/-- The outcome of delivering one inbound message to the runtime:
the new state, the calls made to answer subscribers (subscriber id
paired with the value passed), and the calls made to parameter
subscribers (subscriber id paired with the tree passed). The handler
issues all answer calls before all parameter calls, mirroring the
notify order in the source. -/
structure StepResult where
  state : RuntimeState
  answerCalls : List (Nat × Val)
  paramsCalls : List (Nat × List (String × Val))

/-- The message handler registered by WidgetRuntime.init. Mirrors the
source line by line: only PARAMS_UPDATE is handled; a payload with
a defined reserved key carrying the review answer stores that value as
the initial answer, notifies answer subscribers, strips the key from
the stored parameter tree; otherwise a previously set (non-null)
initial answer is cleared and answer subscribers are notified with
null; in both branches the payload (stripped where applicable) replaces
the parameter tree and parameter subscribers are notified with it. -/
def handleMessage (s : RuntimeState) (msg : HostMessage) : StepResult :=
  if msg.type = "PARAMS_UPDATE" then
    match getKey msg.payload "__answer" with
    | some a =>
      let s1 : RuntimeState := { s with initialAnswer := a }
      let aCalls := s1.answerListeners.map (fun i => (i, s1.initialAnswer))
      let s2 : RuntimeState := { s1 with params := removeKey msg.payload "__answer" }
      { state := s2
        answerCalls := aCalls
        paramsCalls := s2.paramsListeners.map (fun i => (i, s2.params)) }
    | none =>
      let s1 : RuntimeState :=
        if s.initialAnswer.isNull then s else { s with initialAnswer := Val.null }
      let aCalls :=
        if s.initialAnswer.isNull then []
        else s1.answerListeners.map (fun i => (i, Val.null))
      let s2 : RuntimeState := { s1 with params := msg.payload }
      { state := s2
        answerCalls := aCalls
        paramsCalls := s2.paramsListeners.map (fun i => (i, s2.params)) }
  else
    { state := s, answerCalls := [], paramsCalls := [] }

/-- Set.add: appends a subscriber unless already registered. -/
def addListener (l : List Nat) (i : Nat) : List Nat :=
  if i ∈ l then l else l ++ [i]

/-- WidgetRuntime.onAnswerChange: registers an answer subscriber and
replays the current initial answer to it when one is set (non-null).
Returns the new state and the replay calls made synchronously. -/
def onAnswerChange (s : RuntimeState) (i : Nat) : RuntimeState × List (Nat × Val) :=
  ({ s with answerListeners := addListener s.answerListeners i },
   if s.initialAnswer.isNull then [] else [(i, s.initialAnswer)])

/-- WidgetRuntime.onParamsChange: registers a parameter subscriber and
replays the current tree to it when it is non-empty. -/
def onParamsChange (s : RuntimeState) (i : Nat) : RuntimeState × List (Nat × List (String × Val)) :=
  ({ s with paramsListeners := addListener s.paramsListeners i },
   if s.params.isEmpty then [] else [(i, s.params)])

/-!
## UniversalBridge inbound dispatch (src/widget-sdk/src/core.ts, class UniversalBridge)

Both inbound paths (the window message event and the global handler the
native shells call) run the same loop over the listener set:
listeners.forEach(cb, cb(message)). A callback that throws aborts the
forEach iteration, so the loop is embedded as a dispatch that stops at
the first throwing listener (which is itself entered before throwing).
-/

/-- A registered bridge listener: an identity plus whether invoking it
throws an exception. -/
structure BListener where
  id : Nat
  throws : Bool

/-- The forEach delivery loop over registered listeners, in
registration order, returning the calls actually made (listener id
paired with the delivered message). A throwing listener is entered
and then aborts the iteration. -/
def dispatchToListeners (msg : Val) : List BListener → List (Nat × Val)
  | [] => []
  | l :: rest =>
    if l.throws then [(l.id, msg)]
    else (l.id, msg) :: dispatchToListeners msg rest

/-!
## UniversalBridge.sendToHost (src/widget-sdk/src/core.ts)
-/

/-- The five host transports, in the priority order the source probes
them. -/
inductive Transport where
  | parentFrame
  | reactNativeWebView
  | flutterChannel
  | android
  | iosWebkit
deriving DecidableEq

/-- Which transports the surrounding environment offers:
a parent frame distinct from the own window, and the four named global
bridge objects. -/
structure BridgeEnv where
  hasParentFrame : Bool
  hasReactNativeWebView : Bool
  hasFlutterChannel : Bool
  hasAndroid : Bool
  hasIOSWidgetHandler : Bool

/-- The wire shape handed to a transport: the structured message object
(parent-frame postMessage) or its JSON string form (all native
channels). -/
inductive Wire where
  | structuredClone (m : Val)
  | jsonString (m : Val)

/-- The observable outcome of sendToHost: a message handed to exactly
one transport, or a logged "No bridge found" warning and nothing else. -/
inductive SendOutcome where
  | sent (t : Transport) (w : Wire)
  | warnedNoBridge

/-- UniversalBridge.sendToHost: probes the transports with early
returns in source order and falls through to a console warning. -/
def sendToHost (env : BridgeEnv) (message : Val) : SendOutcome :=
  if env.hasParentFrame then .sent .parentFrame (.structuredClone message)
  else if env.hasReactNativeWebView then .sent .reactNativeWebView (.jsonString message)
  else if env.hasFlutterChannel then .sent .flutterChannel (.jsonString message)
  else if env.hasAndroid then .sent .android (.jsonString message)
  else if env.hasIOSWidgetHandler then .sent .iosWebkit (.jsonString message)
  else .warnedNoBridge

/-- Availability of one transport in an environment. -/
def isAvailable (env : BridgeEnv) : Transport → Bool
  | .parentFrame => env.hasParentFrame
  | .reactNativeWebView => env.hasReactNativeWebView
  | .flutterChannel => env.hasFlutterChannel
  | .android => env.hasAndroid
  | .iosWebkit => env.hasIOSWidgetHandler

/-- The fixed priority order stated by the specification. -/
def transportOrder : List Transport :=
  [.parentFrame, .reactNativeWebView, .flutterChannel, .android, .iosWebkit]

/-- The wire shape each transport carries: the parent frame receives
the structured message, every native channel the JSON string. -/
def wireFor (t : Transport) (message : Val) : Wire :=
  match t with
  | .parentFrame => .structuredClone message
  | _ => .jsonString message

/-!
## WidgetRuntime.submit (src/widget-sdk/src/core.ts)
-/

/-- The evaluation record a widget attaches to a submission. -/
structure EvaluationResult where
  isCorrect : Bool
  score : Int
  maxScore : Int

/-- The Submission value constructed by WidgetRuntime.submit: exactly
an answer and its evaluation, as declared in the source. -/
structure Submission where
  answer : Val
  evaluation : EvaluationResult

/-- The JSON object form of an EvaluationResult. -/
def evaluationToVal (e : EvaluationResult) : Val :=
  Val.obj [("isCorrect", Val.bool e.isCorrect),
           ("score", Val.num e.score),
           ("maxScore", Val.num e.maxScore)]

/-- The JSON object form of a Submission as it crosses the wire. -/
def submissionToVal (sub : Submission) : Val :=
  Val.obj [("answer", sub.answer), ("evaluation", evaluationToVal sub.evaluation)]

/-- WidgetRuntime.submit: builds the submission from its two arguments,
sends a SUBMIT message carrying it over the bridge, and returns the
submission itself; the returned promise resolves from this local
construction alone, with no inbound message consulted. The result is
the resolved submission paired with the outbound wire message. -/
def submit (answer : Val) (evaluation : EvaluationResult) : Submission × Val :=
  let submission : Submission := { answer := answer, evaluation := evaluation }
  (submission,
   Val.obj [("type", Val.str "SUBMIT"), ("payload", submissionToVal submission)])

/-!
## Conditional visibility (src/host-web/src/App.tsx, TweakpaneBuilder)
-/

/-- A visibility condition: a dot-delimited parameter path plus three
optional predicates, of which the source consults at most one. The
source field named after the reserved word lists the allowed values. -/
structure VisCondition where
  param : String
  equals : Option Val
  notEquals : Option Val
  inList : Option (List Val)

/-- Split a dot-delimited path into its segments, the semantics of
path.split with a dot separator: the empty string yields one empty
segment, a trailing dot yields a final empty segment. -/
def splitDots : List Char → List (List Char)
  | [] => [[]]
  | '.' :: rest => [] :: splitDots rest
  | c :: rest =>
    match splitDots rest with
    | [] => [[c]]
    | g :: gs => (c :: g) :: gs

/-- The segments of a dot path as strings. -/
def pathSegments (s : String) : List String :=
  (splitDots s.data).map (fun l => String.mk l)

/-- The walk inside TweakpaneBuilder.getConfigValue: at each segment,
a missing or null current value yields undefined, an object is indexed
by the segment, and indexing any other value yields undefined. -/
def walkPath : List String → Option Val → Option Val
  | [], v => v
  | _ :: _, none => none
  | p :: ps, some v =>
    match v with
    | .null => none
    | .obj fields => walkPath ps (getKey fields p)
    | _ => walkPath ps none

/-- TweakpaneBuilder.getConfigValue: resolve a dot-delimited path in
the current configuration tree. -/
def getConfigValue (config : List (String × Val)) (path : String) : Option Val :=
  walkPath (pathSegments path) (some (Val.obj config))

/-- Equality of an optionally-undefined value with a defined one, the
strict-equality test the source applies (undefined equals nothing
defined). -/
def optValEq (v : Option Val) (w : Val) : Bool :=
  match v with
  | some v0 => Val.beq v0 w
  | none => false

/-- Membership of an optionally-undefined value in an array, the
includes test of the source (undefined is in no array of our value
universe). -/
def optValIn (v : Option Val) (l : List Val) : Bool :=
  match v with
  | some v0 => l.any (fun x => Val.beq x v0)
  | none => false

/-- TweakpaneBuilder.checkVisibility, transcribed from the source:
resolve the value at the condition path, then test the predicates with
early returns in the order written there, defaulting to visible. -/
def checkVisibility (cond : VisCondition) (config : List (String × Val)) : Bool :=
  let value := getConfigValue config cond.param
  match cond.equals with
  | some e => optValEq value e
  | none =>
    match cond.notEquals with
    | some ne => !(optValEq value ne)
    | none =>
      match cond.inList with
      | some l => optValIn value l
      | none => true

/-- One of the three predicates of a condition, as an explicit tagged
choice. -/
inductive VisPredicate where
  | eqTo (v : Val)
  | neqTo (v : Val)
  | oneOf (l : List Val)

/-- Modelled from the spec: the first defined predicate of a condition
in the order equals, then notEquals, then the membership list. -/
def firstDefinedPredicate (cond : VisCondition) : Option VisPredicate :=
  match cond.equals with
  | some e => some (.eqTo e)
  | none =>
    match cond.notEquals with
    | some ne => some (.neqTo ne)
    | none => cond.inList.map (fun l => .oneOf l)

/-- Evaluate one predicate against the value found at the condition
path. -/
def evalPredicate (p : VisPredicate) (value : Option Val) : Bool :=
  match p with
  | .eqTo e => optValEq value e
  | .neqTo ne => !(optValEq value ne)
  | .oneOf l => optValIn value l

/-!
## Schema trees

The nested serialized schema shape: a mapping from key to field, where
a field is either a leaf (its remaining attributes kept as the JSON
object the builder emitted) or a folder with a title, an expanded flag
and a nested mapping of fields. The mapping is ordered and is given as
a mutually inductive list so that recursion over it stays structural.
-/

mutual

/-- One serialized schema field. -/
inductive SField where
  | leaf (config : Val)
  | folder (title : String) (expanded : Bool) (fields : SFields)

/-- An ordered key-to-field mapping. -/
inductive SFields where
  | nil
  | cons (key : String) (f : SField) (rest : SFields)

end

/-- Concatenation of two field mappings. -/
def appendFields : SFields → SFields → SFields
  | .nil, t => t
  | .cons k f rest, t => .cons k f (appendFields rest t)

/-!
## Host default extraction
(src/host-web/src/App.tsx, SchemaProcessor.extractDefaultsFromSchema;
the identical helper in src/mobile/components/WidgetHost.tsx)
-/

/-- Walk a received schema: a folder key maps to the recursive
extraction of its fields; a leaf key is kept exactly when its config
declares a default, mapped to that default. -/
def extractDefaultsFromSchema : SFields → List (String × Val)
  | .nil => []
  | .cons k (.folder _ _ inner) rest =>
    (k, Val.obj (extractDefaultsFromSchema inner)) :: extractDefaultsFromSchema rest
  | .cons k (.leaf config) rest =>
    match objGet config "default" with
    | some d => (k, d) :: extractDefaultsFromSchema rest
    | none => extractDefaultsFromSchema rest

/-- First field stored under a key, the object lookup of a received
schema. -/
def findField : SFields → String → Option SField
  | .nil, _ => none
  | .cons k f rest, key => if k = key then some f else findField rest key

/-- The top-level keys of a mapping. -/
def topKeys : SFields → List String
  | .nil => []
  | .cons k _ rest => k :: topKeys rest

/-!
## Dot-path flattening and re-nesting

Modelled from the spec: the flat serialization shape is keyed by
dot-paths; a folder contributes its own entry (title and expanded flag,
fields moved out) followed by the entries of its fields under the
folder key plus a dot; re-nesting reconstructs the nested shape from
the dot paths. The source ships only a partial, single-level flattening
inside defineWidget (src/unnamed/part_007) and no re-nesting, so both
directions follow the wording of the spec.
-/

/-- One entry of the flat schema shape: a leaf config, or a folder
marker carrying the presentation attributes whose fields live under
dotted keys. -/
inductive FlatEntry where
  | leafE (config : Val)
  | folderE (title : String) (expanded : Bool)

/-- Strip a leading given key plus one dot from a second key: succeeds
exactly when the second key is the first key, a dot, and a remainder,
which it returns. -/
def stripDotL : List Char → List Char → Option (List Char)
  | [], '.' :: rest => some rest
  | [], _ => none
  | _ :: _, [] => none
  | a :: as, c :: cs => if a = c then stripDotL as cs else none

/-- stripDotL on strings. -/
def stripDot (k s : String) : Option String :=
  (stripDotL k.data s.data).map (fun l => String.mk l)

/-- Modelled from the spec: flatten a nested schema to its dot-path
entry list. -/
def flattenFields : SFields → List (String × FlatEntry)
  | .nil => []
  | .cons k (.leaf c) rest => (k, .leafE c) :: flattenFields rest
  | .cons k (.folder t e inner) rest =>
    (k, .folderE t e) ::
      ((flattenFields inner).map (fun p => (k ++ "." ++ p.1, p.2)) ++ flattenFields rest)

/-- Collect the leading run of entries whose keys extend a given key by
a dot, stripping that prefix from them, and return it with the
remainder of the list. -/
def takeGroup (k : String) : List (String × FlatEntry) →
    List (String × FlatEntry) × List (String × FlatEntry)
  | [] => ([], [])
  | (k2, e) :: rest =>
    match stripDot k k2 with
    | some suffix =>
      let p := takeGroup k rest
      ((suffix, e) :: p.1, p.2)
    | none => ([], (k2, e) :: rest)

/-- Modelled from the spec: dot-path reconstruction of the nested shape
from a flat entry list. The fuel argument bounds the recursion depth
and is sufficient at the length of the list. -/
def nestF : Nat → List (String × FlatEntry) → SFields
  | _, [] => .nil
  | 0, _ :: _ => .nil
  | fuel + 1, (k, .leafE c) :: rest => .cons k (.leaf c) (nestF fuel rest)
  | fuel + 1, (k, .folderE t e) :: rest =>
    .cons k (.folder t e (nestF fuel (takeGroup k rest).1)) (nestF fuel (takeGroup k rest).2)

/-- Dot-path reconstruction of a flat schema. -/
def nestFlat (l : List (String × FlatEntry)) : SFields :=
  nestF l.length l

/-- A key free of dots, the well-formedness the dot-path encoding
needs. -/
def dotFree (s : String) : Bool :=
  s.data.all (fun c => c ≠ '.')

/-- Every key of a nested schema, at every level, is free of dots. -/
def dotFreeFields : SFields → Bool
  | .nil => true
  | .cons k (.leaf _) rest => dotFree k && dotFreeFields rest
  | .cons k (.folder _ _ inner) rest => dotFree k && dotFreeFields inner && dotFreeFields rest

/-- A depth-three nested schema used to instantiate the round-trip
theorem: a folder containing two folders, beside top-level leaves. -/
def sampleNestedSchema : SFields :=
  .cons "title" (.leaf (Val.obj [("type", Val.str "string"), ("default", Val.str "Tap trung nao")]))
    (.cons "appearance" (.folder "Giao dien" true
        (.cons "colors" (.folder "Mau sac" true
            (.cons "timerColor" (.leaf (Val.obj [("type", Val.str "color"), ("default", Val.str "#1f2937")]))
              (.cons "backgroundColor" (.leaf (Val.obj [("type", Val.str "color")])) .nil)))
          (.cons "layout" (.folder "Bo cuc" false
              (.cons "fontSize" (.leaf (Val.obj [("type", Val.str "number"), ("default", Val.num 80)])) .nil))
            .nil)))
      .nil)

/-!
## Theorems
-/

theorem getKey_removeKey (l : List (String × Val)) (k : String) :
    getKey (removeKey l k) k = none := by
  induction l with
  | nil => rfl
  | cons p rest ih =>
    by_cases h : p.1 = k
    · simp only [removeKey, List.filter_cons, h] at ih ⊢
      simpa using ih
    · simp [removeKey, getKey, List.filter_cons, List.find?_cons, h] at ih ⊢

/-- Claim C1: a PARAMS_UPDATE payload carrying the reserved review
key stores the stripped payload as the parameter tree, so parameter
subscribers only ever see trees without that key, and every answer
subscriber is called exactly once with exactly the carried value. -/
theorem paramsUpdate_answer_routing (s : RuntimeState) (payload : List (String × Val)) (a : Val)
    (h : getKey payload "__answer" = some a) :
    (handleMessage s ⟨"PARAMS_UPDATE", payload⟩).state.params = removeKey payload "__answer" ∧
    getKey (handleMessage s ⟨"PARAMS_UPDATE", payload⟩).state.params "__answer" = none ∧
    (handleMessage s ⟨"PARAMS_UPDATE", payload⟩).answerCalls
      = s.answerListeners.map (fun i => (i, a)) ∧
    ∀ pc ∈ (handleMessage s ⟨"PARAMS_UPDATE", payload⟩).paramsCalls,
      pc.2 = removeKey payload "__answer" ∧ getKey pc.2 "__answer" = none := by
  refine ⟨?_, ?_, ?_, ?_⟩ <;>
    simp [handleMessage, h, getKey_removeKey]

theorem paramsUpdate_answer_routing_witness :
    (handleMessage ⟨[], Val.null, [5], [7]⟩
        ⟨"PARAMS_UPDATE", [("x", Val.num 1), ("__answer", Val.str "B")]⟩).answerCalls
      = [(7, Val.str "B")] ∧
    (handleMessage ⟨[], Val.null, [5], [7]⟩
        ⟨"PARAMS_UPDATE", [("x", Val.num 1), ("__answer", Val.str "B")]⟩).state.params
      = [("x", Val.num 1)] := by
  have h := paramsUpdate_answer_routing ⟨[], Val.null, [5], [7]⟩
    [("x", Val.num 1), ("__answer", Val.str "B")] (Val.str "B") rfl
  exact ⟨by simpa using h.2.2.1, by simpa [removeKey] using h.1⟩

/-- Claim C9: any inbound message whose type is not PARAMS_UPDATE
leaves the runtime state untouched and produces no subscriber call. -/
theorem nonParamsUpdate_noop (s : RuntimeState) (msg : HostMessage)
    (h : msg.type ≠ "PARAMS_UPDATE") :
    handleMessage s msg = ⟨s, [], []⟩ := by
  simp [handleMessage, h]

theorem nonParamsUpdate_noop_witness :
    handleMessage initialRuntimeState ⟨"SUBMIT", [("x", Val.num 1)]⟩
      = ⟨initialRuntimeState, [], []⟩ :=
  nonParamsUpdate_noop initialRuntimeState ⟨"SUBMIT", [("x", Val.num 1)]⟩ (by decide)

/-- Claim C2 (amended): when a PARAMS_UPDATE carrying a non-null
review answer is followed by one lacking the key, processing the second
clears the stored initial answer and calls every answer subscriber
exactly once, with null. -/
theorem review_exit_notifies (s : RuntimeState) (p1 p2 : List (String × Val)) (a : Val)
    (h1 : getKey p1 "__answer" = some a) (h2 : a.isNull = false)
    (h3 : getKey p2 "__answer" = none) :
    (handleMessage (handleMessage s ⟨"PARAMS_UPDATE", p1⟩).state
        ⟨"PARAMS_UPDATE", p2⟩).state.initialAnswer = Val.null ∧
    (handleMessage (handleMessage s ⟨"PARAMS_UPDATE", p1⟩).state
        ⟨"PARAMS_UPDATE", p2⟩).answerCalls
      = s.answerListeners.map (fun i => (i, Val.null)) := by
  constructor <;> simp [handleMessage, h1, h2, h3]

theorem review_exit_notifies_witness :
    (handleMessage (handleMessage ⟨[], Val.null, [], [7]⟩
        ⟨"PARAMS_UPDATE", [("__answer", Val.str "B")]⟩).state
        ⟨"PARAMS_UPDATE", [("mode", Val.str "easy")]⟩).answerCalls
      = [(7, Val.null)] := by
  have h := review_exit_notifies ⟨[], Val.null, [], [7]⟩
    [("__answer", Val.str "B")] [("mode", Val.str "easy")] (Val.str "B") rfl rfl rfl
  simpa using h.2

/-- Claim C2 (counterexample): with a single registered answer
subscriber, a first PARAMS_UPDATE whose review value is null followed
by one lacking the key produces no exit call at all, not exactly one. -/
theorem review_exit_null_counterexample :
    (handleMessage (handleMessage ⟨[], Val.null, [], [7]⟩
        ⟨"PARAMS_UPDATE", [("__answer", Val.null)]⟩).state
        ⟨"PARAMS_UPDATE", []⟩).answerCalls = [] ∧
    (handleMessage ⟨[], Val.null, [], [7]⟩
        ⟨"PARAMS_UPDATE", [("__answer", Val.null)]⟩).state.answerListeners = [7] :=
  ⟨rfl, rfl⟩

/-- Claim C10: a PARAMS_UPDATE whose review value is null stores null
as the initial answer, a later answer subscription gets no replay, and
a subsequent PARAMS_UPDATE lacking the key triggers no exit call. -/
theorem nullAnswer_like_none (s : RuntimeState) (payload : List (String × Val))
    (h : getKey payload "__answer" = some Val.null) :
    (handleMessage s ⟨"PARAMS_UPDATE", payload⟩).state.initialAnswer = Val.null ∧
    (∀ i, (onAnswerChange (handleMessage s ⟨"PARAMS_UPDATE", payload⟩).state i).2 = []) ∧
    (∀ p2, getKey p2 "__answer" = none →
      (handleMessage (handleMessage s ⟨"PARAMS_UPDATE", payload⟩).state
          ⟨"PARAMS_UPDATE", p2⟩).answerCalls = []) := by
  refine ⟨?_, ?_, ?_⟩
  · simp [handleMessage, h]
  · intro i
    simp [handleMessage, h, onAnswerChange, Val.isNull]
  · intro p2 h2
    simp [handleMessage, h, h2, Val.isNull]

theorem nullAnswer_like_none_witness :
    (handleMessage ⟨[], Val.str "old", [], [7]⟩
        ⟨"PARAMS_UPDATE", [("__answer", Val.null)]⟩).state.initialAnswer = Val.null ∧
    (onAnswerChange (handleMessage ⟨[], Val.str "old", [], [7]⟩
        ⟨"PARAMS_UPDATE", [("__answer", Val.null)]⟩).state 9).2 = [] ∧
    (handleMessage (handleMessage ⟨[], Val.str "old", [], [7]⟩
        ⟨"PARAMS_UPDATE", [("__answer", Val.null)]⟩).state
        ⟨"PARAMS_UPDATE", [("x", Val.num 2)]⟩).answerCalls = [] := by
  have h := nullAnswer_like_none ⟨[], Val.str "old", [], [7]⟩ [("__answer", Val.null)] rfl
  exact ⟨h.1, h.2.1 9, h.2.2 [("x", Val.num 2)] rfl⟩

/-- Claim C3 (counterexample): with listener 0 registered first and
throwing, and listener 1 registered after it, delivering a message
invokes only listener 0; the subsequently registered listener 1 is
never invoked. -/
theorem dispatch_throw_counterexample :
    dispatchToListeners (Val.str "m") [⟨0, true⟩, ⟨1, false⟩] = [(0, Val.str "m")] ∧
    (1, Val.str "m") ∉ dispatchToListeners (Val.str "m") [⟨0, true⟩, ⟨1, false⟩] := by
  refine ⟨rfl, ?_⟩
  intro hmem
  rw [show dispatchToListeners (Val.str "m") [⟨0, true⟩, ⟨1, false⟩]
        = [(0, Val.str "m")] from rfl] at hmem
  simp at hmem

/-- Claim C3 (amended): inbound delivery invokes listeners in
registration order with the same message, up to and including the first
listener that throws; a throwing listener prevents every subsequently
registered listener from being invoked. -/
theorem dispatch_stops_at_first_throw (msg : Val) (ls : List BListener) :
    dispatchToListeners msg ls =
      (ls.takeWhile (fun l => !l.throws)).map (fun l => (l.id, msg)) ++
        ((ls.dropWhile (fun l => !l.throws)).head?.toList.map (fun l => (l.id, msg))) := by
  induction ls with
  | nil => rfl
  | cons l rest ih =>
    by_cases h : l.throws <;>
      simp [dispatchToListeners, List.takeWhile_cons, List.dropWhile_cons, h, ih]

/-- Claim C4 (counterexample): the submission constructed by
WidgetRuntime.submit for a concrete answer and evaluation carries no
metadata field at all, so its metadata carries no timestamp. -/
theorem submit_no_metadata_counterexample :
    objGet (submissionToVal (submit (Val.str "B")
        { isCorrect := false, score := 0, maxScore := 100 }).1) "metadata" = none ∧
    (submit (Val.str "B") { isCorrect := false, score := 0, maxScore := 100 }).2
      = Val.obj [("type", Val.str "SUBMIT"),
                 ("payload", Val.obj [("answer", Val.str "B"),
                   ("evaluation", Val.obj [("isCorrect", Val.bool false),
                     ("score", Val.num 0), ("maxScore", Val.num 100)])])] :=
  ⟨rfl, rfl⟩

/-- Claim C4 (amended): submit constructs a Submission holding exactly
the given answer and evaluation and nothing else, sends one SUBMIT
message whose payload is that Submission, and resolves with the
constructed Submission itself, a purely local value independent of any
host response. -/
theorem submit_constructs_and_sends (answer : Val) (evaluation : EvaluationResult) :
    (submit answer evaluation).1 = ⟨answer, evaluation⟩ ∧
    (submit answer evaluation).2
      = Val.obj [("type", Val.str "SUBMIT"),
                 ("payload", submissionToVal ⟨answer, evaluation⟩)] ∧
    objGet (submissionToVal ⟨answer, evaluation⟩) "metadata" = none :=
  ⟨rfl, rfl, rfl⟩

/-- Claim C6: sendToHost dispatches over the first available transport
in the fixed priority order, handing the parent frame the structured
message and every native channel the JSON string; with no transport
available the outcome is only the logged warning. -/
theorem sendToHost_priority (env : BridgeEnv) (message : Val) :
    sendToHost env message =
      match transportOrder.find? (isAvailable env) with
      | some t => .sent t (wireFor t message)
      | none => .warnedNoBridge := by
  rcases env with ⟨b1, b2, b3, b4, b5⟩
  cases b1 <;> cases b2 <;> cases b3 <;> cases b4 <;> cases b5 <;> rfl

/-- Claim C7: checkVisibility resolves the dot-delimited path in the
current value tree and applies the first defined predicate in the order
equals, notEquals, membership; with none defined it evaluates visible. -/
theorem checkVisibility_first_defined (cond : VisCondition) (config : List (String × Val)) :
    checkVisibility cond config =
      match firstDefinedPredicate cond with
      | some p => evalPredicate p (getConfigValue config cond.param)
      | none => true := by
  rcases cond with ⟨pp, e, n, i⟩
  cases e <;> cases n <;> cases i <;> rfl

theorem extract_absent : ∀ (fs : SFields) (k : String), k ∉ topKeys fs →
    getKey (extractDefaultsFromSchema fs) k = none
  | .nil, _, _ => rfl
  | .cons k2 (.leaf c) rest, k, h => by
    have hne : ¬(k2 = k) := fun hh => h (by simp [topKeys, hh])
    have hrest : k ∉ topKeys rest := fun hh => h (by simp [topKeys, hh])
    cases hd : objGet c "default" with
    | none =>
      simpa [extractDefaultsFromSchema, hd] using extract_absent rest k hrest
    | some d =>
      simpa [extractDefaultsFromSchema, hd, getKey, List.find?_cons, hne]
        using extract_absent rest k hrest
  | .cons k2 (.folder ti ex inner) rest, k, h => by
    have hne : ¬(k2 = k) := fun hh => h (by simp [topKeys, hh])
    have hrest : k ∉ topKeys rest := fun hh => h (by simp [topKeys, hh])
    simpa [extractDefaultsFromSchema, getKey, List.find?_cons, hne]
      using extract_absent rest k hrest

/-- Claim C8: for a received schema with unique keys, the extraction
keeps every folder key, mapped to the recursive extraction of that
folder, and keeps a leaf key exactly when its config declares a
default, mapped to that default. -/
theorem extract_defaults_lookup : ∀ (fs : SFields), (topKeys fs).Nodup → ∀ (k : String),
    getKey (extractDefaultsFromSchema fs) k =
      (match findField fs k with
       | some (.folder _ _ inner) => some (Val.obj (extractDefaultsFromSchema inner))
       | some (.leaf config) => objGet config "default"
       | none => none)
  | .nil, _, _ => rfl
  | .cons k2 f rest, hnd, k => by
    have hnd2 : (topKeys rest).Nodup := by
      have := hnd
      simp only [topKeys, List.nodup_cons] at this
      exact this.2
    have hk2 : k2 ∉ topKeys rest := by
      have := hnd
      simp only [topKeys, List.nodup_cons] at this
      exact this.1
    by_cases hk : k2 = k
    · subst hk
      cases f with
      | folder ti ex inner =>
        simp [extractDefaultsFromSchema, getKey, List.find?_cons, findField]
      | leaf c =>
        cases hd : objGet c "default" with
        | some d =>
          simp [extractDefaultsFromSchema, hd, getKey, List.find?_cons, findField]
        | none =>
          simpa [extractDefaultsFromSchema, hd, findField]
            using extract_absent rest k2 hk2
    · cases f with
      | folder ti ex inner =>
        simpa [extractDefaultsFromSchema, getKey, List.find?_cons, findField, hk]
          using extract_defaults_lookup rest hnd2 k
      | leaf c =>
        cases hd : objGet c "default" with
        | some d =>
          simpa [extractDefaultsFromSchema, hd, getKey, List.find?_cons, findField, hk]
            using extract_defaults_lookup rest hnd2 k
        | none =>
          simpa [extractDefaultsFromSchema, hd, findField, hk]
            using extract_defaults_lookup rest hnd2 k

theorem extract_defaults_lookup_witness :
    getKey (extractDefaultsFromSchema
        (.cons "duration" (.leaf (Val.obj [("type", Val.str "number"), ("default", Val.num 60)]))
          (.cons "appearance" (.folder "Giao dien" true
              (.cons "timerColor" (.leaf (Val.obj [("default", Val.str "#1f2937")]))
                (.cons "note" (.leaf (Val.obj [("type", Val.str "string")])) .nil)))
            .nil))) "appearance"
      = some (Val.obj [("timerColor", Val.str "#1f2937")]) := by
  rw [extract_defaults_lookup _ (by simp [topKeys]) "appearance"]
  rfl

theorem stripDotL_self_append (k x : List Char) : stripDotL k (k ++ '.' :: x) = some x := by
  induction k with
  | nil => rfl
  | cons a as ih => simp [stripDotL, ih]

theorem stripDot_self_append (k x : String) : stripDot k (k ++ "." ++ x) = some x := by
  have hd : (k ++ "." ++ x).data = k.data ++ '.' :: x.data := by
    show (k.data ++ ['.']) ++ x.data = k.data ++ '.' :: x.data
    simp
  simp [stripDot, hd, stripDotL_self_append]

theorem stripDotL_some_has_dot : ∀ (k s x : List Char), stripDotL k s = some x → '.' ∈ s
  | [], '.' :: _, _, _ => by simp
  | [], [], _, h => by simp [stripDotL] at h
  | [], c :: cs, x, h => by
    by_cases hc : c = '.'
    · simp [hc]
    · rw [show stripDotL [] (c :: cs) = none by
        cases c with
        | mk v hv =>
          cases cs <;> simp_all [stripDotL]] at h
      exact absurd h (by simp)
  | _ :: _, [], _, h => by simp [stripDotL] at h
  | a :: as, c :: cs, x, h => by
    by_cases hac : a = c
    · simp only [stripDotL, if_pos hac] at h
      exact List.mem_cons_of_mem _ (stripDotL_some_has_dot as cs x h)
    · simp [stripDotL, hac] at h

theorem stripDot_none_of_dotFree (k s : String) (h : dotFree s = true) :
    stripDot k s = none := by
  cases hc : stripDotL k.data s.data with
  | none => simp [stripDot, hc]
  | some x =>
    exfalso
    have hmem := stripDotL_some_has_dot k.data s.data x hc
    have := (List.all_eq_true.mp h) '.' hmem
    simp at this

theorem takeGroup_length (k : String) : ∀ (l : List (String × FlatEntry)),
    (takeGroup k l).1.length + (takeGroup k l).2.length = l.length
  | [] => rfl
  | (k2, e) :: rest => by
    cases hs : stripDot k k2 with
    | some suffix =>
      have ih := takeGroup_length k rest
      simp [takeGroup, hs]
      omega
    | none => simp [takeGroup, hs]

theorem nestF_fuel_congr : ∀ (l : List (String × FlatEntry)) (f1 f2 : Nat),
    l.length ≤ f1 → l.length ≤ f2 → nestF f1 l = nestF f2 l
  | [], f1, f2, _, _ => by cases f1 <;> cases f2 <;> rfl
  | (k, e) :: rest, f1 + 1, f2 + 1, h1, h2 => by
    have hr : rest.length ≤ f1 := by simp only [List.length_cons] at h1; omega
    have hr2 : rest.length ≤ f2 := by simp only [List.length_cons] at h2; omega
    cases e with
    | leafE c =>
      simp only [nestF]
      rw [nestF_fuel_congr rest f1 f2 hr hr2]
    | folderE ti ex =>
      have hlen := takeGroup_length k rest
      simp only [nestF]
      rw [nestF_fuel_congr (takeGroup k rest).1 f1 f2 (by omega) (by omega),
        nestF_fuel_congr (takeGroup k rest).2 f1 f2 (by omega) (by omega)]
termination_by l => l.length
decreasing_by
  all_goals have := takeGroup_length k rest
  all_goals simp only [List.length_cons]
  all_goals omega

/-- The first entry of a list has a dot-free key (vacuous for the empty
list). -/
def headKeyDotFree (l : List (String × FlatEntry)) : Prop :=
  ∀ p ∈ l.head?, dotFree p.1 = true

theorem takeGroup_strip_append (k : String) :
    ∀ (g t : List (String × FlatEntry)), headKeyDotFree t →
    takeGroup k ((g.map (fun p => (k ++ "." ++ p.1, p.2))) ++ t) = (g, t)
  | [], [], _ => rfl
  | [], (k2, e) :: t2, ht => by
    have hdf : dotFree k2 = true := ht (k2, e) (by simp)
    simp [takeGroup, stripDot_none_of_dotFree k k2 hdf]
  | (x, e) :: g2, t, ht => by
    simp only [List.map_cons, List.cons_append, takeGroup, stripDot_self_append,
      List.append_eq]
    rw [takeGroup_strip_append k g2 t ht]

theorem appendFields_nil : ∀ (fs : SFields), appendFields fs .nil = fs
  | .nil => rfl
  | .cons k f rest => by
    simp only [appendFields]
    rw [appendFields_nil rest]

theorem flatten_headKeyDotFree : ∀ (fs : SFields), dotFreeFields fs = true →
    headKeyDotFree (flattenFields fs)
  | .nil, _ => by intro p hp; simp [flattenFields] at hp
  | .cons k (.leaf c) rest, h => by
    intro p hp
    simp only [flattenFields, List.head?] at hp
    simp only [Option.mem_def, Option.some.injEq] at hp
    subst hp
    simp only [dotFreeFields, Bool.and_eq_true] at h
    exact h.1
  | .cons k (.folder ti ex inner) rest, h => by
    intro p hp
    simp only [flattenFields, List.head?] at hp
    simp only [Option.mem_def, Option.some.injEq] at hp
    subst hp
    simp only [dotFreeFields, Bool.and_eq_true] at h
    exact h.1.1

theorem nest_flatten_aux : ∀ (fs : SFields) (t : List (String × FlatEntry)) (fuel : Nat),
    dotFreeFields fs = true → headKeyDotFree t →
    (flattenFields fs ++ t).length ≤ fuel →
    nestF fuel (flattenFields fs ++ t) = appendFields fs (nestF t.length t)
  | .nil, t, fuel, _, _, hlen => by
    simp only [flattenFields, List.nil_append] at hlen ⊢
    simp only [appendFields]
    exact nestF_fuel_congr t fuel t.length hlen (le_refl _)
  | .cons k (.leaf c) rest, t, fuel, hdf, ht, hlen => by
    simp only [dotFreeFields, Bool.and_eq_true] at hdf
    simp only [flattenFields, List.cons_append, List.length_cons] at hlen ⊢
    cases fuel with
    | zero => omega
    | succ f =>
      simp only [nestF]
      rw [nest_flatten_aux rest t f hdf.2 ht (by omega)]
      rfl
  | .cons k (.folder ti ex inner) rest, t, fuel, hdf, ht, hlen => by
    simp only [dotFreeFields, Bool.and_eq_true] at hdf
    simp only [flattenFields, List.cons_append, List.append_assoc, List.length_cons,
      List.length_append, List.length_map] at hlen ⊢
    cases fuel with
    | zero => omega
    | succ f =>
      simp only [nestF]
      have hb : headKeyDotFree (flattenFields rest ++ t) := by
        cases hrest : flattenFields rest with
        | nil => simpa using ht
        | cons p ps =>
          intro q hq
          simp only [hrest, List.cons_append, List.head?, Option.mem_def,
            Option.some.injEq] at hq
          subst hq
          exact flatten_headKeyDotFree rest hdf.2 p (by simp [hrest])
      rw [takeGroup_strip_append k (flattenFields inner) (flattenFields rest ++ t) hb]
      have h1 : nestF f (flattenFields inner) = inner := by
        have haux := nest_flatten_aux inner [] f hdf.1.2
          (by intro p hp; simp at hp) (by simp; omega)
        simpa [appendFields_nil, nestF] using haux
      have h2 : nestF f (flattenFields rest ++ t) = appendFields rest (nestF t.length t) :=
        nest_flatten_aux rest t f hdf.2 ht (by simp; omega)
      rw [h1, h2]
      rfl

/-- Claim C5: flattening a nested schema to its dot-path-keyed form and
re-nesting it by dot-path reconstruction reproduces the original nested
structure exactly, for arbitrarily deep folder nesting, whenever every
key is free of dots (the well-formedness the dot-path encoding
presupposes); the two serialization shapes therefore denote the same
tree. -/
theorem flatten_nest_roundtrip (fs : SFields) (h : dotFreeFields fs = true) :
    nestFlat (flattenFields fs) = fs := by
  have haux := nest_flatten_aux fs [] (flattenFields fs).length h
    (by intro p hp; simp at hp) (by simp)
  simpa [nestFlat, appendFields_nil, nestF] using haux

theorem flatten_nest_roundtrip_witness :
    dotFreeFields sampleNestedSchema = true ∧
    nestFlat (flattenFields sampleNestedSchema) = sampleNestedSchema :=
  ⟨rfl, flatten_nest_roundtrip sampleNestedSchema rfl⟩
